import Mathlib

/-!
# Verification of the catchapage capture orchestration engine

A shallow embedding, in Lean 4, of the core of the `catchapage` repository:
the run coordinator (`PageCaptureRunner`), the per-link orchestrator
(`LinkCaptureTask`), the per-device variant engine (`VariantCaptureTask`),
the device profile factory warning logic (`DeviceContextFactory`), and the
URL slugging algorithm (`PageCaptureRunner.slugifyUrl`).

TypeScript `async` control flow is embedded as pure state passing: fallible
operations return `Except String α`, `try`/`finally` pairs become an explicit
combinator over (event trace, result) pairs, and the behaviour of the
external browser (navigation results, variant task results, page/context
close results) is passed in as explicit parameters so that every exit path
of the source can be analysed.

JavaScript numbers used as decimal strings (`` `${suffix++}` ``) are embedded
through `natToDec`, a base-10 renderer proved injective below.
-/

/-! ## Decimal rendering of numbers (JS `String(n)` for naturals) -/

/-- The digit characters of `n` in base 10, most significant first, with the
accumulator `acc` appended (tail `acc` is already-rendered lower digits). -/
def natToDecAux (n : Nat) (acc : List Char) : List Char :=
  let d := Nat.digitChar (n % 10)
  if n / 10 = 0 then d :: acc else natToDecAux (n / 10) (d :: acc)
termination_by n
decreasing_by
  exact Nat.div_lt_self (Nat.pos_of_ne_zero (by intro h; simp [h] at *)) (by omega)

/-- Decimal digit list of `n` (no sign, no leading zeros except for `0`). -/
def natDigits (n : Nat) : List Char := natToDecAux n []

/-- JS-style decimal rendering of a natural number, e.g. `natToDec 404 = "404"`. -/
def natToDec (n : Nat) : String := ⟨natDigits n⟩


/-! ## ASCII character classes and case folding

The slug sanitizer in `PageCaptureRunner.slugifyUrl` uses the JS regexes
`/https?:\/\//gi`, `/[^a-z0-9]+/gi` (case-insensitive, so `[^a-zA-Z0-9]`),
`/^-+|-+$/g` and `String.prototype.toLowerCase`. All characters surviving
the second regex are ASCII alphanumerics or hyphens, on which
`toLowerCase` acts exactly as the ASCII shift below. -/

/-- ASCII range `A`-`Z` (codes 65-90). -/
def isAsciiUpper (c : Char) : Bool := 65 ≤ c.toNat && c.toNat ≤ 90

/-- ASCII range `a`-`z` (codes 97-122). -/
def isAsciiLower (c : Char) : Bool := 97 ≤ c.toNat && c.toNat ≤ 122

/-- ASCII range `0`-`9` (codes 48-57). -/
def isAsciiDigit (c : Char) : Bool := 48 ≤ c.toNat && c.toNat ≤ 57

/-- The character class `[a-zA-Z0-9]` of the sanitizer's regexes. -/
def isAlnumAscii (c : Char) : Bool := isAsciiUpper c || isAsciiLower c || isAsciiDigit c

/-- JS `toLowerCase` restricted to its ASCII behaviour: shift `A`-`Z` down by 32. -/
def jsToLower (c : Char) : Char :=
  if isAsciiUpper c then Char.ofNat (c.toNat + 32) else c

/-- Characters a slug may contain: lowercase ASCII letters, digits, hyphens. -/
def isSlugChar (c : Char) : Bool := isAsciiLower c || isAsciiDigit c || c == '-'

/-- JS whitespace recognised by `String.prototype.trim` (the code points that
occur in practice: space, tab, LF, CR, VT, FF, NBSP, BOM). -/
def isJsSpace (c : Char) : Bool :=
  c == ' ' || c == '\t' || c == '\n' || c == '\r' ||
    c.toNat == 11 || c.toNat == 12 || c.toNat == 160 || c.toNat == 65279

/-- JS `String.prototype.trim`: drop whitespace from both ends. -/
def jsTrim (s : String) : String :=
  ⟨((s.data.dropWhile isJsSpace).reverse.dropWhile isJsSpace).reverse⟩

/-! ## The slug sanitizer of `PageCaptureRunner.slugifyUrl`

Embeds, step by step, the chain in `src/variantCaptureTask.ts`
(`PageCaptureRunner.slugifyUrl`, also in the alternate
`pageCaptureRunner.ts`):
`base.replace(/https?:\/\//gi, "").replace(/[^a-z0-9]+/gi, "-")
.replace(/^-+|-+$/g, "").toLowerCase()`. -/

/-- One global pass of `replace(/https?:\/\//gi, "")`: at each position,
remove a case-insensitive occurrence of `https://` or `http://` (the regex
`https?://` matches greedily, so `https://` is preferred), otherwise keep
the character; scanning resumes after a removed occurrence. -/
def stripProtocols : List Char → List Char
  | [] => []
  | c :: rest =>
    if ((c :: rest).take 8).map jsToLower = "https://".data then
      stripProtocols ((c :: rest).drop 8)
    else if ((c :: rest).take 7).map jsToLower = "http://".data then
      stripProtocols ((c :: rest).drop 7)
    else c :: stripProtocols rest
termination_by l => l.length
decreasing_by
  · simp only [List.length_drop, List.length_cons]; omega
  · simp only [List.length_drop, List.length_cons]; omega
  · simp only [List.length_cons]; omega

/-- One global pass of `replace(/[^a-z0-9]+/gi, "-")`: each maximal run of
characters outside `[a-zA-Z0-9]` becomes a single hyphen. The flag `inRun`
records whether the previous character was part of such a run. -/
def collapseNonAlnum (inRun : Bool) : List Char → List Char
  | [] => []
  | c :: rest =>
    if isAlnumAscii c then c :: collapseNonAlnum false rest
    else if inRun then collapseNonAlnum true rest
    else '-' :: collapseNonAlnum true rest

/-- The character class of `/^-+|-+$/g`. -/
def isHyphen (c : Char) : Bool := c == '-'

/-- Drop the trailing run of hyphens (the `-+$` alternative). -/
def dropTrailingHyphens (l : List Char) : List Char :=
  (l.reverse.dropWhile isHyphen).reverse

/-- `replace(/^-+|-+$/g, "")`: drop the leading and the trailing hyphen runs. -/
def trimHyphens (l : List Char) : List Char :=
  dropTrailingHyphens (l.dropWhile isHyphen)

/-- The sanitizer chain of `slugifyUrl`:
strip protocols, collapse non-alphanumerics, trim hyphens, lowercase. -/
def sanitizeSlug (s : String) : String :=
  ⟨(trimHyphens (collapseNonAlnum false (stripProtocols s.data))).map jsToLower⟩

/-! ## `PageCaptureRunner.slugifyUrl` and the used-name set -/

/-- The fields of a successfully `new URL(...)`-parsed URL that `slugifyUrl`
reads. URL parsing itself is an external platform facility; it enters the
embedding as an oracle `String → Option ParsedUrl` (`none` models the
`catch` branch of `slugifyUrl`). `searchParams` is the already stringified
`parsed.searchParams.toString()`. -/
structure ParsedUrl where
  hostname : String
  pathname : String
  searchParams : String

/-- `parsed.pathname.replace(/\/$/, "")`: remove one trailing slash. -/
def stripTrailingSlash (s : String) : String :=
  if s.data.getLast? = some '/' then ⟨s.data.dropLast⟩ else s

/-- The `base` string `slugifyUrl` sanitizes: on parse success
`hostname + pathname-without-trailing-slash [+ "?" + searchParams]`,
on parse failure the raw URL. -/
def slugBase (parse : String → Option ParsedUrl) (rawUrl : String) : String :=
  match parse rawUrl with
  | some parsed =>
    parsed.hostname ++ stripTrailingSlash parsed.pathname ++
      (if parsed.searchParams = "" then "" else "?" ++ parsed.searchParams)
  | none => rawUrl

/-- The candidate tried after `k` collisions: `base` itself, then
`base-1`, `base-2`, ... (the loop `candidate = sanitized + "-" + suffix++`
with `suffix` starting at 1). -/
def suffixCandidate (base : String) : Nat → String
  | 0 => base
  | k + 1 => base ++ "-" ++ natToDec (k + 1)

/-- The collision loop `while (usedNames.has(candidate))`, with explicit
fuel. `usedNames.length + 1` fuel always suffices: the candidates are
pairwise distinct, so some candidate among the first `usedNames.length + 1`
is unused. -/
def pickUniqueAux (usedNames : List String) (base : String) : Nat → Nat → String
  | 0, k => suffixCandidate base k
  | fuel + 1, k =>
    if suffixCandidate base k ∈ usedNames then pickUniqueAux usedNames base fuel (k + 1)
    else suffixCandidate base k

/-- Resolve a slug against the run's used-name set. -/
def pickUnique (usedNames : List String) (base : String) : String :=
  pickUniqueAux usedNames base (usedNames.length + 1) 0

/-- `PageCaptureRunner.slugifyUrl(rawUrl, index)`: compute the base (URL
parse with raw fallback), sanitize it, fall back to `link-<index+1>` when
sanitization is empty, resolve collisions against `usedNames`, and return
the chosen name together with the enlarged used-name set
(`this.usedNames.add(candidate)`). -/
def slugifyUrl (usedNames : List String) (parse : String → Option ParsedUrl)
    (rawUrl : String) (index : Nat) : String × List String :=
  let sanitized :=
    if sanitizeSlug (slugBase parse rawUrl) = "" then "link-" ++ natToDec (index + 1)
    else sanitizeSlug (slugBase parse rawUrl)
  let candidate := pickUnique usedNames sanitized
  (candidate, candidate :: usedNames)

/-- The sequence of folder names produced for a URL list, threading the
used-name set and the running index exactly as
`PageCaptureRunner.prepareLinkTasks` does (sequential `for` loop over
`this.urls.entries()`). -/
def slugRun (parse : String → Option ParsedUrl) :
    List String → Nat → List String → List String
  | [], _, _ => []
  | url :: rest, index, usedNames =>
    (slugifyUrl usedNames parse url index).1 ::
      slugRun parse rest (index + 1) (slugifyUrl usedNames parse url index).2

/-- A parse oracle on which `new URL(...)` always throws. -/
def noParse : String → Option ParsedUrl := fun _ => none

/-! ## `CaptureOutcome` -/

/-- The per-URL outcome value object (`captureOutcome.ts`). Errors are
already strings in the embedding, matching
`error instanceof Error ? error.message : String(error)`. -/
structure CaptureOutcome where
  url : String
  folder : String
  success : Bool
  error : Option String
deriving DecidableEq

/-- `CaptureOutcome.ok(url, folder)`. -/
def CaptureOutcome.ok (url folder : String) : CaptureOutcome :=
  ⟨url, folder, true, none⟩

/-- `CaptureOutcome.fail(url, folder, error)`. -/
def CaptureOutcome.fail (url folder error : String) : CaptureOutcome :=
  ⟨url, folder, false, some error⟩

/-! ## `LinkCaptureTask` -/

/-- `Promise.all(tasks.map(task => task.run()))` over the variant results:
resolves when all resolve, otherwise rejects with a rejection reason. The
temporal order of rejections is not observable in the embedding; the first
rejecting variant in task order is taken (the claims under study never
depend on which rejection is surfaced). -/
def promiseAllUnit : List (Except String Unit) → Except String Unit
  | [] => Except.ok ()
  | Except.ok () :: rest => promiseAllUnit rest
  | Except.error e :: _ => Except.error e

/-- The sequential branch `for (const task of tasks) await task.run()`:
the first throw escapes the loop. -/
def runVariantsSequentially : List (Except String Unit) → Except String Unit
  | [] => Except.ok ()
  | Except.ok () :: rest => runVariantsSequentially rest
  | Except.error e :: _ => Except.error e

/-- `LinkCaptureTask.run()`: run the three variant tasks (concurrently or
sequentially), convert any escape into `CaptureOutcome.fail` via the
surrounding `try`/`catch`, otherwise return `CaptureOutcome.ok`. The
function is total: no exception leaves it. -/
def LinkCaptureTask.run (parallelVariants : Bool) (url linkDir : String)
    (variantResults : List (Except String Unit)) : CaptureOutcome :=
  match
    (if parallelVariants then promiseAllUnit variantResults
     else runVariantsSequentially variantResults) with
  | Except.ok _ => CaptureOutcome.ok url linkDir
  | Except.error e => CaptureOutcome.fail url linkDir e

/-! ## `PageCaptureRunner` -/

/-- One entry of the `preparedTasks` array built by
`PageCaptureRunner.prepareLinkTasks`: the URL, its link directory, the
variant-parallelism flag, and the behaviour of the link's three variant
tasks (an environment parameter of the embedding). -/
structure PreparedLinkTask where
  url : String
  linkDir : String
  parallelVariants : Bool
  variantResults : List (Except String Unit)

/-- The inner `runTask` closure of `PageCaptureRunner.execute`. -/
def runTask (entry : PreparedLinkTask) : CaptureOutcome :=
  LinkCaptureTask.run entry.parallelVariants entry.url entry.linkDir entry.variantResults

/-- The sequential branch of `PageCaptureRunner.execute`:
`results.push(await runTask(task))` in input order. -/
def executeSequentially : List PreparedLinkTask → List CaptureOutcome
  | [] => []
  | entry :: rest => runTask entry :: executeSequentially rest

/-- `PageCaptureRunner.execute(tasks)`: `Promise.all(tasks.map(runTask))`
when parallel capture is enabled (results are collected by task index, so
the list order is the task order), otherwise the sequential loop. -/
def PageCaptureRunner.execute (parallelCaptureEnabled : Bool)
    (tasks : List PreparedLinkTask) : List CaptureOutcome :=
  if parallelCaptureEnabled then tasks.map runTask
  else executeSequentially tasks

/-- `PageCaptureRunner.prepareLinkTasks`: the strictly sequential loop over
`this.urls.entries()` that slugs each URL, builds its link directory (the
excluded path-joining collaborator enters as `joinDir`), and queues one
`LinkCaptureTask` per URL. `behaviour` supplies each link's variant task
results. -/
def PageCaptureRunner.prepareLinkTasks (parallelVariants : Bool)
    (joinDir : String → String) (parse : String → Option ParsedUrl)
    (behaviour : Nat → String → List (Except String Unit)) :
    List String → Nat → List String → List PreparedLinkTask
  | [], _, _ => []
  | url :: rest, index, usedNames =>
    { url := url,
      linkDir := joinDir (slugifyUrl usedNames parse url index).1,
      parallelVariants := parallelVariants,
      variantResults := behaviour index url } ::
      PageCaptureRunner.prepareLinkTasks parallelVariants joinDir parse behaviour
        rest (index + 1) (slugifyUrl usedNames parse url index).2

/-- `PageCaptureRunner.run()` restricted to its outcome-producing pipeline:
prepare one task per URL (sequentially, from an empty used-name set and
index 0) and execute them. The single `PARALLEL_CAPTURE_ENABLED` toggle
controls both the link-level fan-out and each link's variant fan-out, as
in the source. Browser launch/close and run-folder creation either succeed
(and do not affect the outcome list) or abort the whole run before any
outcome exists; they are outside this function. -/
def PageCaptureRunner.run (parallelCaptureEnabled : Bool)
    (joinDir : String → String) (parse : String → Option ParsedUrl)
    (behaviour : Nat → String → List (Except String Unit))
    (urls : List String) : List CaptureOutcome :=
  PageCaptureRunner.execute parallelCaptureEnabled
    (PageCaptureRunner.prepareLinkTasks parallelCaptureEnabled joinDir parse behaviour
      urls 0 [])

/-! ## Navigation with fallback (`VariantCaptureTask`) -/

/-- The two `waitUntil` readiness modes the engine uses. -/
inductive WaitUntil
  | networkidle
  | domcontentloaded
deriving DecidableEq

/-- A `{ waitUntil, timeout }` pair. -/
structure NavigationStrategy where
  waitUntil : WaitUntil
  timeout : Int
deriving DecidableEq

/-- `VariantCaptureTask.NAVIGATION_STRATEGIES`: network idle with the
primary timeout, then DOM content loaded with the fallback timeout. -/
def NAVIGATION_STRATEGIES (primaryNavigationTimeoutMs fallbackNavigationTimeoutMs : Int) :
    List NavigationStrategy :=
  [⟨WaitUntil.networkidle, primaryNavigationTimeoutMs⟩,
   ⟨WaitUntil.domcontentloaded, fallbackNavigationTimeoutMs⟩]

/-- What one `page.goto` call does: throw, or return `null`, or return a
response with an HTTP status and status text. -/
inductive GotoResult
  | threw (error : String)
  | resp (response : Option (Nat × String))
deriving DecidableEq

/-- The error message thrown by `validateNavigationResponse`:
`Navigation failed for <url>: HTTP <status>[ <statusText>].` -/
def navFailMessage (url : String) (status : Nat) (statusText : String) : String :=
  "Navigation failed for " ++ url ++ ": HTTP " ++ natToDec status ++
    (if statusText = "" then "" else " " ++ statusText) ++ "."

/-- `VariantCaptureTask.validateNavigationResponse`: a missing response is
accepted; a response with status `>= 400` throws. -/
def validateNavigationResponse (url : String) (response : Option (Nat × String)) :
    Except String Unit :=
  match response with
  | none => Except.ok ()
  | some (status, statusText) =>
    if 400 ≤ status then Except.error (navFailMessage url status statusText)
    else Except.ok ()

/-- Whether one navigation attempt counts as a failure for its strategy:
`goto` threw, or the response failed validation. -/
def gotoFails (url : String) (g : GotoResult) : Bool :=
  match g with
  | GotoResult.threw _ => true
  | GotoResult.resp response =>
    match validateNavigationResponse url response with
    | Except.ok _ => false
    | Except.error _ => true

/-- The error one navigation attempt contributes to `lastError`: the
thrown `goto` error, or the validation error, or `none` on success. -/
def gotoError (url : String) (g : GotoResult) : Option String :=
  match g with
  | GotoResult.threw e => some e
  | GotoResult.resp response =>
    match validateNavigationResponse url response with
    | Except.ok _ => none
    | Except.error e => some e

/-- The `for` loop of `VariantCaptureTask.navigateWithFallback`: try each
strategy once in order (`gotos index` is what `page.goto` does on the
`index`-th call); on success return, on failure remember `lastError` and
move on; when strategies are exhausted rethrow the last error. Returns the
list of attempted strategies alongside the result. -/
def navLoop (url : String) (gotos : Nat → GotoResult) :
    List NavigationStrategy → Nat → Option String →
      List NavigationStrategy × Except String Unit
  | [], _, lastError =>
    ([], Except.error (lastError.getD ("Navigation failed for " ++ url ++ ".")))
  | strategy :: rest, index, _ =>
    match gotos index with
    | GotoResult.threw e =>
      (strategy :: (navLoop url gotos rest (index + 1) (some e)).1,
       (navLoop url gotos rest (index + 1) (some e)).2)
    | GotoResult.resp response =>
      match validateNavigationResponse url response with
      | Except.ok _ => ([strategy], Except.ok ())
      | Except.error e =>
        (strategy :: (navLoop url gotos rest (index + 1) (some e)).1,
         (navLoop url gotos rest (index + 1) (some e)).2)

/-- `VariantCaptureTask.navigateWithFallback`. -/
def navigateWithFallback (primaryNavigationTimeoutMs fallbackNavigationTimeoutMs : Int)
    (url : String) (gotos : Nat → GotoResult) :
    List NavigationStrategy × Except String Unit :=
  navLoop url gotos
    (NAVIGATION_STRATEGIES primaryNavigationTimeoutMs fallbackNavigationTimeoutMs) 0 none

/-! ## The content-readiness predicate (`waitForMeaningfulContent`) -/

/-- A bounding rectangle. The engine only compares its dimensions with 0;
they are embedded as rationals. -/
structure DomRect where
  width : ℚ
  height : ℚ

/-- The first element (in document order) matching
`img, video, iframe, canvas, svg, picture, main, article, section, div`
under the body, as the predicate observes it: whether it is an
`HTMLElement` (an `svg` for instance is not), its `innerText`, and its
bounding rectangle. -/
structure DomElement where
  isHTMLElement : Bool
  innerText : String
  rect : DomRect

/-- The document body as the predicate observes it: its `innerText`
(optional: `body.innerText?.` in the source) and the result of the
`querySelector` call (`none` when no element matches). -/
structure DomBody where
  innerText : Option String
  firstMeaningful : Option DomElement

/-- A DOM state the in-page predicate can encounter. -/
structure DomState where
  body : Option DomBody

/-- The in-page closure of `VariantCaptureTask.waitForMeaningfulContent`
(file `src/variantCaptureTask.ts`): no body is not ready; a body with
non-empty trimmed `innerText` is ready; otherwise the first matching
element decides — absent: not ready; an `HTMLElement`: ready iff its
trimmed `innerText` is non-empty or its rectangle has positive width and
height; not an `HTMLElement`: ready. -/
def contentReadyCheck (d : DomState) : Bool :=
  match d.body with
  | none => false
  | some body =>
    if (match body.innerText with
        | none => false
        | some s => if jsTrim s = "" then false else true) then true
    else
      match body.firstMeaningful with
      | none => false
      | some el =>
        if el.isHTMLElement then
          if jsTrim el.innerText = "" then
            decide (0 < el.rect.width) && decide (0 < el.rect.height)
          else true
        else true

/-- The four-step readiness definition as the specification words it:
(1) body's trimmed visible text non-empty: ready; else (2) no matching
element: not ready; (3) the element's trimmed visible text non-empty:
ready; else (4) ready only if its rectangle has positive width and
height. -/
def contentReadySpec (d : DomState) : Bool :=
  match d.body with
  | none => false
  | some body =>
    if jsTrim (body.innerText.getD "") ≠ "" then true
    else
      match body.firstMeaningful with
      | none => false
      | some el =>
        if jsTrim el.innerText ≠ "" then true
        else decide (0 < el.rect.width) && decide (0 < el.rect.height)

/-- The four-step definition amended with the carve-out the code actually
implements: a matching element that is not an `HTMLElement` is accepted as
ready without consulting its text or rectangle. -/
def contentReadySpecAmended (d : DomState) : Bool :=
  match d.body with
  | none => false
  | some body =>
    if jsTrim (body.innerText.getD "") ≠ "" then true
    else
      match body.firstMeaningful with
      | none => false
      | some el =>
        if el.isHTMLElement then
          if jsTrim el.innerText ≠ "" then true
          else decide (0 < el.rect.width) && decide (0 < el.rect.height)
        else true

/-- A DOM state separating code and spec: empty body text, and the first
matching element is a zero-sized, textless non-`HTMLElement` (e.g. a bare
`svg`). -/
def domDividingState : DomState :=
  ⟨some ⟨some "", some ⟨false, "", ⟨0, 0⟩⟩⟩⟩

/-! ## The variant engine's wait sequence (`VariantCaptureTask.run`) -/

/-- The awaited steps of a successful `VariantCaptureTask.run`, as an
observable trace. -/
inductive VEff
  | navigate
  | sleepPostNav (ms : Int)
  | sleepStabilize (ms : Int)
  | waitContent (timeoutMs : Int)
  | screenshot
  | writeHtml
deriving DecidableEq

/-- The trace of a successful `VariantCaptureTask.run`
(file `src/variantCaptureTask.ts`): navigate, then
`page.waitForTimeout(POST_NAVIGATION_IDLE_MS)` unconditionally, then the
stabilization sleep guarded by `CAPTURE_STABILIZATION_DELAY_MS <= 0`, then
the content-readiness wait guarded by `CONTENT_READY_TIMEOUT_MS <= 0`,
then the screenshot and the HTML write. -/
def variantRunEffects (postNavigationIdleMs captureStabilizationDelayMs
    contentReadyTimeoutMs : Int) : List VEff :=
  [VEff.navigate] ++
    [VEff.sleepPostNav postNavigationIdleMs] ++
    (if captureStabilizationDelayMs ≤ 0 then []
     else [VEff.sleepStabilize captureStabilizationDelayMs]) ++
    (if contentReadyTimeoutMs ≤ 0 then []
     else [VEff.waitContent contentReadyTimeoutMs]) ++
    [VEff.screenshot, VEff.writeHtml]

/-! ## Resource lifetime of `VariantCaptureTask.withContext`

The nested `try`/`finally` blocks are embedded as a small trace semantics:
an action yields the list of close events it performs plus a result, and
`tryFinallyAct` has exact JS semantics (the finalizer always runs; a
finalizer that completes normally preserves the body's result, a throwing
finalizer supersedes it). -/

/-- Observable close events. -/
inductive CloseEv
  | pageClose
  | ctxClose
deriving DecidableEq

/-- An effectful step: emitted close events plus a result. -/
abbrev Act (α : Type) := List CloseEv × Except String α

/-- Sequencing: on error the continuation does not run. -/
def bindAct {α β : Type} (m : Act α) (f : α → Act β) : Act β :=
  match m with
  | (tr, Except.error e) => (tr, Except.error e)
  | (tr, Except.ok a) => (tr ++ (f a).1, (f a).2)

/-- `try body finally fin` in JS: `fin` always runs; if `fin` throws its
error wins, otherwise the body's result (value or error) stands. -/
def tryFinallyAct {α : Type} (body : Act α) (fin : Act Unit) : Act α :=
  (body.1 ++ fin.1,
   match fin.2 with
   | Except.error e => Except.error e
   | Except.ok _ => body.2)

/-- `browser.newContext(...)` (emits no close event). -/
def newContextAct (ok : Bool) : Act Unit :=
  ([], if ok then Except.ok () else Except.error "newContext failed")

/-- `context.newPage()` (emits no close event). -/
def newPageAct (ok : Bool) : Act Unit :=
  ([], if ok then Except.ok () else Except.error "newPage failed")

/-- `page.close()`: always records its invocation, may fail. -/
def pageCloseAct (ok : Bool) : Act Unit :=
  ([CloseEv.pageClose], if ok then Except.ok () else Except.error "page.close failed")

/-- `context.close()`: always records its invocation, may fail. -/
def ctxCloseAct (ok : Bool) : Act Unit :=
  ([CloseEv.ctxClose], if ok then Except.ok () else Except.error "context.close failed")

/-- `VariantCaptureTask.withContext` (file `src/variantCaptureTask.ts`):
create the context, then
`try { page = newPage; try { handler(page) } finally { page.close() } }
finally { context.close() }`. The handler itself performs no close
events, so it enters as a plain result. -/
def withContext {α : Type} (ctxCreateOk newPageOk : Bool) (handler : Except String α)
    (pageCloseOk ctxCloseOk : Bool) : Act α :=
  bindAct (newContextAct ctxCreateOk) fun _ =>
    tryFinallyAct
      (bindAct (newPageAct newPageOk) fun _ =>
        tryFinallyAct ([], handler) (pageCloseAct pageCloseOk))
      (ctxCloseAct ctxCloseOk)

/-- The close-event trace of one `withContext` execution. -/
def withContextEvents {α : Type} (ctxCreateOk newPageOk : Bool)
    (handler : Except String α) (pageCloseOk ctxCloseOk : Bool) : List CloseEv :=
  (withContext ctxCreateOk newPageOk handler pageCloseOk ctxCloseOk).1

/-! ## `DeviceContextFactory` warning bookkeeping -/

/-- Device kinds. -/
inductive DeviceKind
  | desktop
  | mobile
  | tablet
deriving DecidableEq

/-- The three per-kind warning flags of a `DeviceContextFactory`
instance. -/
structure FactoryState where
  desktopWarningEmitted : Bool
  mobileWarningEmitted : Bool
  tabletWarningEmitted : Bool
deriving DecidableEq

/-- A freshly constructed factory: no warning has been emitted. -/
def FactoryState.initial : FactoryState := ⟨false, false, false⟩

/-- Read the warning flag of a kind. -/
def FactoryState.warned (st : FactoryState) : DeviceKind → Bool
  | DeviceKind.desktop => st.desktopWarningEmitted
  | DeviceKind.mobile => st.mobileWarningEmitted
  | DeviceKind.tablet => st.tabletWarningEmitted

/-- `DeviceContextFactory.emitWarning`: warn and latch the flag, once per
kind; later calls for the same kind do nothing. Returns the emitted
warnings (kind and descriptor name). -/
def emitWarning (st : FactoryState) (type : DeviceKind) (descriptorName : String) :
    List (DeviceKind × String) × FactoryState :=
  match type with
  | DeviceKind.desktop =>
    if st.desktopWarningEmitted then ([], st)
    else ([(DeviceKind.desktop, descriptorName)], { st with desktopWarningEmitted := true })
  | DeviceKind.mobile =>
    if st.mobileWarningEmitted then ([], st)
    else ([(DeviceKind.mobile, descriptorName)], { st with mobileWarningEmitted := true })
  | DeviceKind.tablet =>
    if st.tabletWarningEmitted then ([], st)
    else ([(DeviceKind.tablet, descriptorName)], { st with tabletWarningEmitted := true })

/-- `DeviceContextFactory.resolveDescriptor`: trim the configured name; a
blank or absent name silently resolves to `none` (fallback profile); a
non-blank name missing from the registry warns (once per kind) and
resolves to `none`; a registered name resolves to it. The Playwright
`devices` table enters as the oracle `registry`. -/
def resolveDescriptor (st : FactoryState) (registry : String → Option Unit)
    (descriptorName : Option String) (type : DeviceKind) :
    Option Unit × List (DeviceKind × String) × FactoryState :=
  match descriptorName with
  | none => (none, [], st)
  | some n =>
    if jsTrim n = "" then (none, [], st)
    else
      match registry (jsTrim n) with
      | none =>
        ((none : Option Unit), (emitWarning st type (jsTrim n)).1,
          (emitWarning st type (jsTrim n)).2)
      | some d => (some d, [], st)

/-- Whether a lookup takes the fallback branch (blank name or unregistered
name) — the situations the specification calls a failed lookup. -/
def fallsBack (registry : String → Option Unit) (descriptorName : Option String) : Bool :=
  match descriptorName with
  | none => true
  | some n => if jsTrim n = "" then true else (registry (jsTrim n)).isNone

/-- Whether a lookup actually reaches `emitWarning`: non-blank name absent
from the registry. -/
def warnTrigger (registry : String → Option Unit) (descriptorName : Option String) : Bool :=
  match descriptorName with
  | none => false
  | some n => if jsTrim n = "" then false else (registry (jsTrim n)).isNone

/-- `warnTrigger` for a given kind's entry. -/
def triggersFor (registry : String → Option Unit) (kind : DeviceKind)
    (entry : DeviceKind × Option String) : Bool :=
  entry.1 == kind && warnTrigger registry entry.2

/-- Whether an emission batch contains a warning for `kind`. -/
def emitsFor (kind : DeviceKind) (emission : List (DeviceKind × String)) : Bool :=
  emission.any fun w => w.1 == kind

/-- A sequence of profile builds against one factory instance: for each
`(kind, descriptorName)` build request, the warnings that build emits.
This is the warning-relevant behaviour of `buildDeviceProfile` over the
factory's lifetime. -/
def runLookups (registry : String → Option Unit) :
    FactoryState → List (DeviceKind × Option String) → List (List (DeviceKind × String))
  | _, [] => []
  | st, (kind, name) :: rest =>
    (resolveDescriptor st registry name kind).2.1 ::
      runLookups registry (resolveDescriptor st registry name kind).2.2 rest

/-- A registry containing no descriptor at all. -/
def emptyRegistry : String → Option Unit := fun _ => none

/-! ## Theorems -/

theorem natToDecAux_eq_append (n : Nat) (acc : List Char) :
    natToDecAux n acc = natDigits n ++ acc := by
  induction n using Nat.strong_induction_on generalizing acc with
  | _ n ih =>
    by_cases h : n / 10 = 0
    · simp [natToDecAux, natDigits, h]
    · have hlt : n / 10 < n := Nat.div_lt_self (by omega) (by omega)
      rw [natToDecAux]
      simp only [h, if_false]
      rw [ih (n / 10) hlt]
      conv_rhs => rw [natDigits, natToDecAux]
      simp only [h, if_false]
      rw [ih (n / 10) hlt]
      simp

theorem natDigits_unfold (n : Nat) :
    natDigits n =
      (if n / 10 = 0 then [] else natDigits (n / 10)) ++ [Nat.digitChar (n % 10)] := by
  by_cases h : n / 10 = 0
  · simp [natDigits, natToDecAux, h]
  · conv_lhs => rw [natDigits, natToDecAux]
    simp [h, natToDecAux_eq_append]

/-- Numeric value of a decimal digit list (inverse of `natDigits`). -/
def decValue (l : List Char) : Nat :=
  l.foldl (fun a c => 10 * a + (c.toNat - 48)) 0

theorem decValue_append_digit (l : List Char) (c : Char) :
    decValue (l ++ [c]) = 10 * decValue l + (c.toNat - 48) := by
  simp [decValue]

theorem digitChar_toNat (d : Nat) (h : d < 10) : (Nat.digitChar d).toNat - 48 = d := by
  interval_cases d <;> decide

theorem decValue_natDigits (n : Nat) : decValue (natDigits n) = n := by
  induction n using Nat.strong_induction_on with
  | _ n ih =>
    rw [natDigits_unfold]
    by_cases h : n / 10 = 0
    · have hn : n < 10 := by omega
      rw [if_pos h, List.nil_append, Nat.mod_eq_of_lt hn]
      simp only [decValue, List.foldl_cons, List.foldl_nil]
      rw [digitChar_toNat n hn]
      omega
    · rw [if_neg h, decValue_append_digit,
        ih (n / 10) (Nat.div_lt_self (by omega) (by omega)),
        digitChar_toNat (n % 10) (Nat.mod_lt _ (by omega))]
      omega

theorem natDigits_injective : Function.Injective natDigits := by
  intro m n h
  have := decValue_natDigits m
  rw [h, decValue_natDigits] at this
  omega

theorem natToDec_injective : Function.Injective natToDec := by
  intro m n h
  exact natDigits_injective (congrArg String.data h)

theorem natDigits_ne_nil (n : Nat) : natDigits n ≠ [] := by
  rw [natDigits_unfold]
  simp

theorem digitChar_isDigit (d : Nat) (h : d < 10) : isAsciiDigit (Nat.digitChar d) = true := by
  interval_cases d <;> decide

theorem natDigits_all_digit (n : Nat) : ∀ c ∈ natDigits n, isAsciiDigit c = true := by
  induction n using Nat.strong_induction_on with
  | _ n ih =>
    rw [natDigits_unfold]
    intro c hc
    rcases List.mem_append.mp hc with hl | hr
    · by_cases h : n / 10 = 0
      · simp [h] at hl
      · exact ih (n / 10) (Nat.div_lt_self (by omega) (by omega)) c (by simpa [h] using hl)
    · have hc' : c = Nat.digitChar (n % 10) := by simpa using hr
      subst hc'
      exact digitChar_isDigit (n % 10) (Nat.mod_lt _ (by omega))

/-! ### Totality and shape of `LinkCaptureTask.run` -/

theorem promiseAllUnit_eq_sequential (l : List (Except String Unit)) :
    promiseAllUnit l = runVariantsSequentially l := by
  induction l with
  | nil => rfl
  | cons head rest ih =>
    cases head with
    | ok v => cases v; simpa [promiseAllUnit, runVariantsSequentially] using ih
    | error e => rfl

theorem promiseAllUnit_ok_iff (l : List (Except String Unit)) :
    promiseAllUnit l = Except.ok () ↔ ∀ r ∈ l, r = Except.ok () := by
  induction l with
  | nil => simp [promiseAllUnit]
  | cons head rest ih =>
    cases head with
    | ok v => cases v; simp [promiseAllUnit, ih]
    | error e => simp [promiseAllUnit]

theorem promiseAllUnit_error_mem (l : List (Except String Unit)) (e : String)
    (h : promiseAllUnit l = Except.error e) : Except.error e ∈ l := by
  induction l with
  | nil => simp [promiseAllUnit] at h
  | cons head rest ih =>
    cases head with
    | ok v => cases v; exact List.mem_cons_of_mem _ (ih (by simpa [promiseAllUnit] using h))
    | error e' =>
      simp only [promiseAllUnit] at h
      cases h
      exact List.mem_cons_self _ _

theorem linkRun_reduces (parallelVariants : Bool) (url linkDir : String)
    (variantResults : List (Except String Unit)) :
    LinkCaptureTask.run parallelVariants url linkDir variantResults =
      (match promiseAllUnit variantResults with
       | Except.ok _ => CaptureOutcome.ok url linkDir
       | Except.error e => CaptureOutcome.fail url linkDir e) := by
  cases parallelVariants <;>
    simp [LinkCaptureTask.run, promiseAllUnit_eq_sequential]

theorem linkRun_url (parallelVariants : Bool) (url linkDir : String)
    (variantResults : List (Except String Unit)) :
    (LinkCaptureTask.run parallelVariants url linkDir variantResults).url = url := by
  rw [linkRun_reduces]
  cases promiseAllUnit variantResults <;> rfl

/-- C2: `LinkCaptureTask.run()` never raises: it is a total function into
`CaptureOutcome` for every behaviour of the three variant tasks and both
variant-parallelism modes; it returns `CaptureOutcome.ok(url, linkDir)`
exactly when all variants succeed, and `CaptureOutcome.fail(url, linkDir,
error)` carrying a thrown variant error otherwise. -/
theorem linkCaptureTask_run_never_raises (parallelVariants : Bool) (url linkDir : String)
    (variantResults : List (Except String Unit)) :
    (LinkCaptureTask.run parallelVariants url linkDir variantResults).url = url ∧
    (LinkCaptureTask.run parallelVariants url linkDir variantResults).folder = linkDir ∧
    ((LinkCaptureTask.run parallelVariants url linkDir variantResults).success = true ↔
      ∀ r ∈ variantResults, r = Except.ok ()) ∧
    (LinkCaptureTask.run parallelVariants url linkDir variantResults =
        CaptureOutcome.ok url linkDir ∨
      ∃ e, Except.error e ∈ variantResults ∧
        LinkCaptureTask.run parallelVariants url linkDir variantResults =
          CaptureOutcome.fail url linkDir e) := by
  rw [linkRun_reduces]
  rcases h : promiseAllUnit variantResults with e | v
  case ok =>
    cases v
    refine ⟨rfl, rfl, ?_, Or.inl rfl⟩
    simpa [CaptureOutcome.ok] using (promiseAllUnit_ok_iff variantResults).mp h
  case error =>
    refine ⟨rfl, rfl, ?_, Or.inr ⟨e, promiseAllUnit_error_mem _ _ h, rfl⟩⟩
    constructor
    · intro hfalse
      simp [CaptureOutcome.fail] at hfalse
    · intro hall
      have := (promiseAllUnit_ok_iff variantResults).mpr hall
      rw [h] at this
      cases this

/-- Witness for C2 at concrete inputs: three successful variants give
`ok`; a failing variant gives a failure outcome carrying its error. -/
theorem linkCaptureTask_run_never_raises_witness :
    (LinkCaptureTask.run true "https://a.com" "out/a-com"
        [Except.ok (), Except.ok (), Except.ok ()]).success = true ∧
    (LinkCaptureTask.run false "https://a.com" "out/a-com"
        [Except.error "nav failed", Except.ok (), Except.ok ()]).success = false :=
  ⟨((linkCaptureTask_run_never_raises true "https://a.com" "out/a-com"
      [Except.ok (), Except.ok (), Except.ok ()]).2.2.1).mpr (by simp),
   by decide⟩

/-! ### Outcome list shape of `PageCaptureRunner.run` -/

theorem executeSequentially_eq_map (tasks : List PreparedLinkTask) :
    executeSequentially tasks = tasks.map runTask := by
  induction tasks with
  | nil => rfl
  | cons entry rest ih => simp [executeSequentially, ih]

theorem execute_eq_map (parallelCaptureEnabled : Bool) (tasks : List PreparedLinkTask) :
    PageCaptureRunner.execute parallelCaptureEnabled tasks = tasks.map runTask := by
  cases parallelCaptureEnabled <;>
    simp [PageCaptureRunner.execute, executeSequentially_eq_map]

theorem prepareLinkTasks_map_url (parallelVariants : Bool) (joinDir : String → String)
    (parse : String → Option ParsedUrl)
    (behaviour : Nat → String → List (Except String Unit)) (urls : List String)
    (index : Nat) (usedNames : List String) :
    (PageCaptureRunner.prepareLinkTasks parallelVariants joinDir parse behaviour
        urls index usedNames).map PreparedLinkTask.url = urls := by
  induction urls generalizing index usedNames with
  | nil => rfl
  | cons url rest ih =>
    simp [PageCaptureRunner.prepareLinkTasks, ih]

/-- C1: for every input URL list and every value of the parallel-capture
toggle, `PageCaptureRunner.run` returns exactly one `CaptureOutcome` per
input URL, and the `i`-th outcome's `url` is the `i`-th input URL (stated
as: mapping `url` over the outcomes gives back the input list, and the
lengths agree). -/
theorem run_outcomes_match_urls (parallelCaptureEnabled : Bool)
    (joinDir : String → String) (parse : String → Option ParsedUrl)
    (behaviour : Nat → String → List (Except String Unit))
    (urls : List String) (hne : urls ≠ []) :
    (PageCaptureRunner.run parallelCaptureEnabled joinDir parse behaviour urls).length =
      urls.length ∧
    (PageCaptureRunner.run parallelCaptureEnabled joinDir parse behaviour urls).map
      CaptureOutcome.url = urls := by
  have hmap :
      (PageCaptureRunner.run parallelCaptureEnabled joinDir parse behaviour urls).map
        CaptureOutcome.url = urls := by
    rw [PageCaptureRunner.run, execute_eq_map, List.map_map]
    have hurl : ∀ entry : PreparedLinkTask, (CaptureOutcome.url ∘ runTask) entry = entry.url :=
      fun entry => linkRun_url _ _ _ _
    rw [funext hurl]
    exact prepareLinkTasks_map_url _ _ _ _ _ _ _
  refine ⟨?_, hmap⟩
  have := congrArg List.length hmap
  simpa using this

/-- Witness for C1: two URLs, both toggle values, concrete variant
behaviours (one link failing). -/
theorem run_outcomes_match_urls_witness :
    (["https://a.com", "https://a.com"] : List String) ≠ [] ∧
    (PageCaptureRunner.run true (fun n => "out/run/" ++ n) noParse
        (fun i _ => if i = 0 then [Except.ok (), Except.ok (), Except.ok ()]
          else [Except.error "boom", Except.ok (), Except.ok ()])
        ["https://a.com", "https://a.com"]).map CaptureOutcome.url =
      ["https://a.com", "https://a.com"] ∧
    (PageCaptureRunner.run false (fun n => "out/run/" ++ n) noParse
        (fun _ _ => [Except.ok (), Except.ok (), Except.ok ()])
        ["https://a.com", "https://a.com"]).length = 2 :=
  ⟨by decide,
   (run_outcomes_match_urls true (fun n => "out/run/" ++ n) noParse
      (fun i _ => if i = 0 then [Except.ok (), Except.ok (), Except.ok ()]
        else [Except.error "boom", Except.ok (), Except.ok ()])
      ["https://a.com", "https://a.com"] (by decide)).2,
   (run_outcomes_match_urls false (fun n => "out/run/" ++ n) noParse
      (fun _ _ => [Except.ok (), Except.ok (), Except.ok ()])
      ["https://a.com", "https://a.com"] (by decide)).1⟩

/-! ### Close discipline of `VariantCaptureTask.withContext` -/

/-- C3 (counterexample): when `context.newPage()` itself throws — an error
before the page is created — `page.close()` is never invoked, so it is not
the case that page-close is invoked exactly once on every exit path. -/
theorem withContext_counterexample :
    ¬ ((withContextEvents true false (Except.ok ()) true true).count CloseEv.pageClose = 1) := by
  decide

/-- C3 (amended): once the context exists, context-close is invoked exactly
once on every exit path — handler success, handler exception, failing
page-close, failing context-close — and page-close is invoked exactly once
whenever the page was created (zero times when page creation failed), with
the page always closed before the context. -/
theorem withContext_close_discipline {α : Type} (newPageOk : Bool)
    (handler : Except String α) (pageCloseOk ctxCloseOk : Bool) :
    withContextEvents true newPageOk handler pageCloseOk ctxCloseOk =
      (if newPageOk then [CloseEv.pageClose, CloseEv.ctxClose] else [CloseEv.ctxClose]) ∧
    (withContextEvents true newPageOk handler pageCloseOk ctxCloseOk).count CloseEv.ctxClose
      = 1 ∧
    (withContextEvents true newPageOk handler pageCloseOk ctxCloseOk).count CloseEv.pageClose
      = (if newPageOk then 1 else 0) := by
  cases newPageOk <;> exact ⟨rfl, rfl, rfl⟩

/-! ### The post-navigation idle wait of `VariantCaptureTask.run` -/

/-- C5 (counterexample): with `POST_NAVIGATION_IDLE_MS = 0` (a value `≤ 0`)
the success trace of `VariantCaptureTask.run` still contains the
post-navigation `page.waitForTimeout` call — the sleep is not skipped. -/
theorem postNav_sleep_counterexample :
    VEff.sleepPostNav 0 ∈ variantRunEffects 0 2000 10000 := by
  decide

/-- C5 (amended): for every non-positive `POST_NAVIGATION_IDLE_MS` the
variant engine still issues the post-navigation
`page.waitForTimeout(POST_NAVIGATION_IDLE_MS)` exactly once (a
non-positive duration waits for no time, but the call is not skipped);
the `≤ 0`-skip applies to the stabilization and content-readiness waits. -/
theorem postNav_sleep_always_issued (postNavigationIdleMs captureStabilizationDelayMs
    contentReadyTimeoutMs : Int) (hp : postNavigationIdleMs ≤ 0) :
    (variantRunEffects postNavigationIdleMs captureStabilizationDelayMs
        contentReadyTimeoutMs).count (VEff.sleepPostNav postNavigationIdleMs) = 1 ∧
    (captureStabilizationDelayMs ≤ 0 →
      ∀ ms, VEff.sleepStabilize ms ∉ variantRunEffects postNavigationIdleMs
        captureStabilizationDelayMs contentReadyTimeoutMs) ∧
    (contentReadyTimeoutMs ≤ 0 →
      ∀ ms, VEff.waitContent ms ∉ variantRunEffects postNavigationIdleMs
        captureStabilizationDelayMs contentReadyTimeoutMs) := by
  refine ⟨?_, ?_, ?_⟩
  · unfold variantRunEffects
    split_ifs <;>
      simp [List.count_append, List.count_cons, List.count_nil]
  · intro hs ms
    unfold variantRunEffects
    rw [if_pos hs]
    split_ifs <;> simp
  · intro hc ms
    unfold variantRunEffects
    rw [if_pos hc]
    split_ifs <;> simp

/-- Witness for C5 (amended) at a concrete configuration. -/
theorem postNav_sleep_always_issued_witness :
    (0 : Int) ≤ 0 ∧
    (variantRunEffects 0 2000 10000).count (VEff.sleepPostNav 0) = 1 :=
  ⟨by decide, (postNav_sleep_always_issued 0 2000 10000 (by decide)).1⟩

/-! ### Navigation strategies and the HTTP status gate -/

theorem gotoFails_eq_isSome (url : String) (g : GotoResult) :
    gotoFails url g = (gotoError url g).isSome := by
  cases g with
  | threw e => rfl
  | resp response =>
    simp only [gotoFails, gotoError]
    cases validateNavigationResponse url response <;> rfl

theorem navLoop_two (url : String) (gotos : Nat → GotoResult)
    (s0 s1 : NavigationStrategy) (i : Nat) (lastError : Option String) :
    navLoop url gotos [s0, s1] i lastError =
      match gotoError url (gotos i) with
      | none => ([s0], Except.ok ())
      | some _ =>
        match gotoError url (gotos (i + 1)) with
        | none => ([s0, s1], Except.ok ())
        | some e => ([s0, s1], Except.error e) := by
  cases hg : gotos i with
  | threw e =>
    cases hg' : gotos (i + 1) with
    | threw e' => simp [navLoop, hg, hg', gotoError]
    | resp response' =>
      cases hv' : validateNavigationResponse url response' with
      | ok v => cases v; simp [navLoop, hg, hg', hv', gotoError]
      | error e' => simp [navLoop, hg, hg', hv', gotoError]
  | resp response =>
    cases hv : validateNavigationResponse url response with
    | ok v => cases v; simp [navLoop, hg, hv, gotoError]
    | error e =>
      cases hg' : gotos (i + 1) with
      | threw e' => simp [navLoop, hg, hg', hv, gotoError]
      | resp response' =>
        cases hv' : validateNavigationResponse url response' with
        | ok v => cases v; simp [navLoop, hg, hg', hv, hv', gotoError]
        | error e' => simp [navLoop, hg, hg', hv, hv', gotoError]

/-- C7: navigation tries exactly the two fixed strategies in order
(`networkidle` with the primary timeout, then `domcontentloaded` with the
fallback timeout), each at most once; and when the first attempt fails
while the second succeeds, navigation succeeds with no surfaced error. -/
theorem nav_two_strategies_fallback (primaryNavigationTimeoutMs
    fallbackNavigationTimeoutMs : Int) (url : String) (gotos : Nat → GotoResult) :
    ((navigateWithFallback primaryNavigationTimeoutMs fallbackNavigationTimeoutMs
        url gotos).1 = [⟨WaitUntil.networkidle, primaryNavigationTimeoutMs⟩] ∨
      (navigateWithFallback primaryNavigationTimeoutMs fallbackNavigationTimeoutMs
        url gotos).1 = [⟨WaitUntil.networkidle, primaryNavigationTimeoutMs⟩,
          ⟨WaitUntil.domcontentloaded, fallbackNavigationTimeoutMs⟩]) ∧
    (∀ s, (navigateWithFallback primaryNavigationTimeoutMs fallbackNavigationTimeoutMs
        url gotos).1.count s ≤ 1) ∧
    (gotoFails url (gotos 0) = true → gotoFails url (gotos 1) = false →
      (navigateWithFallback primaryNavigationTimeoutMs fallbackNavigationTimeoutMs
        url gotos).2 = Except.ok ()) := by
  have key := navLoop_two url gotos ⟨WaitUntil.networkidle, primaryNavigationTimeoutMs⟩
    ⟨WaitUntil.domcontentloaded, fallbackNavigationTimeoutMs⟩ 0 none
  rw [navigateWithFallback, NAVIGATION_STRATEGIES, key]
  have hne : (⟨WaitUntil.networkidle, primaryNavigationTimeoutMs⟩ : NavigationStrategy) ≠
      ⟨WaitUntil.domcontentloaded, fallbackNavigationTimeoutMs⟩ := by
    intro h
    cases h
  have hcount1 : ∀ s, ([⟨WaitUntil.networkidle, primaryNavigationTimeoutMs⟩] :
      List NavigationStrategy).count s ≤ 1 := by
    intro s
    exact List.nodup_iff_count_le_one.mp (by simp) s
  have hcount2 : ∀ s, ([⟨WaitUntil.networkidle, primaryNavigationTimeoutMs⟩,
      ⟨WaitUntil.domcontentloaded, fallbackNavigationTimeoutMs⟩] :
      List NavigationStrategy).count s ≤ 1 := by
    intro s
    exact List.nodup_iff_count_le_one.mp (by simp [hne]) s
  cases h0 : gotoError url (gotos 0) with
  | none =>
    refine ⟨Or.inl rfl, hcount1, ?_⟩
    intro hf0 _
    rw [gotoFails_eq_isSome, h0] at hf0
  | some e =>
    cases h1 : gotoError url (gotos 1) with
    | none => exact ⟨Or.inr rfl, hcount2, fun _ _ => rfl⟩
    | some e' =>
      refine ⟨Or.inr rfl, hcount2, ?_⟩
      intro _ hf1
      rw [gotoFails_eq_isSome, h1] at hf1
      simp at hf1

/-- Witness for C7: the first strategy throws, the second returns a `200`
response; navigation succeeds with both strategies attempted. -/
theorem nav_two_strategies_fallback_witness :
    gotoFails "https://a.com" ((fun i => if i = 0 then GotoResult.threw "timeout"
      else GotoResult.resp (some (200, "OK"))) 0) = true ∧
    gotoFails "https://a.com" ((fun i => if i = 0 then GotoResult.threw "timeout"
      else GotoResult.resp (some (200, "OK"))) 1) = false ∧
    (navigateWithFallback 45000 60000 "https://a.com"
      (fun i => if i = 0 then GotoResult.threw "timeout"
        else GotoResult.resp (some (200, "OK")))).2 = Except.ok () :=
  ⟨by decide, by decide,
   (nav_two_strategies_fallback 45000 60000 "https://a.com"
      (fun i => if i = 0 then GotoResult.threw "timeout"
        else GotoResult.resp (some (200, "OK")))).2.2 (by decide) (by decide)⟩

/-- C6: a navigation response with HTTP status `≥ 400` is a navigation
failure for that strategy — the next strategy is attempted if one remains,
and if the final strategy's response has status `≥ 400` the variant fails
with the validation error, which the link boundary converts into a failure
outcome; the message for a `404` response contains `"404"`. -/
theorem nav_http_status_gate (primaryNavigationTimeoutMs fallbackNavigationTimeoutMs : Int)
    (url statusText : String) (gotos : Nat → GotoResult) (status : Nat)
    (hstatus : 400 ≤ status) :
    (gotos 0 = GotoResult.resp (some (status, statusText)) →
      (navigateWithFallback primaryNavigationTimeoutMs fallbackNavigationTimeoutMs
          url gotos).1 =
        [⟨WaitUntil.networkidle, primaryNavigationTimeoutMs⟩,
         ⟨WaitUntil.domcontentloaded, fallbackNavigationTimeoutMs⟩]) ∧
    (gotoFails url (gotos 0) = true →
      gotos 1 = GotoResult.resp (some (status, statusText)) →
      (navigateWithFallback primaryNavigationTimeoutMs fallbackNavigationTimeoutMs
          url gotos).2 = Except.error (navFailMessage url status statusText) ∧
      ∀ (parallelVariants : Bool) (linkDir : String),
        LinkCaptureTask.run parallelVariants url linkDir
            [(navigateWithFallback primaryNavigationTimeoutMs fallbackNavigationTimeoutMs
                url gotos).2, Except.ok (), Except.ok ()] =
          CaptureOutcome.fail url linkDir (navFailMessage url status statusText)) ∧
    ("404".data <:+: (navFailMessage url 404 statusText).data) := by
  have key := navLoop_two url gotos ⟨WaitUntil.networkidle, primaryNavigationTimeoutMs⟩
    ⟨WaitUntil.domcontentloaded, fallbackNavigationTimeoutMs⟩ 0 none
  have hval : validateNavigationResponse url (some (status, statusText)) =
      Except.error (navFailMessage url status statusText) := by
    simp [validateNavigationResponse, hstatus]
  refine ⟨?_, ?_, ?_⟩
  · intro h0
    have hge : gotoError url (gotos 0) = some (navFailMessage url status statusText) := by
      rw [h0]
      simp [gotoError, hval]
    rw [navigateWithFallback, NAVIGATION_STRATEGIES, key, hge]
    cases gotoError url (gotos (0 + 1)) <;> rfl
  · intro hf0 h1
    have hge1 : gotoError url (gotos 1) = some (navFailMessage url status statusText) := by
      rw [h1]
      simp [gotoError, hval]
    rw [gotoFails_eq_isSome] at hf0
    have hnav : (navigateWithFallback primaryNavigationTimeoutMs fallbackNavigationTimeoutMs
        url gotos).2 = Except.error (navFailMessage url status statusText) := by
      rw [navigateWithFallback, NAVIGATION_STRATEGIES, key]
      cases hge0 : gotoError url (gotos 0) with
      | none => rw [hge0] at hf0; cases hf0
      | some e => simpa [hge1] using rfl
    refine ⟨hnav, ?_⟩
    intro parallelVariants linkDir
    rw [hnav, linkRun_reduces]
    rfl
  · refine ⟨("Navigation failed for " ++ url ++ ": HTTP ").data,
      ((if statusText = "" then "" else " " ++ statusText) ++ ".").data, ?_⟩
    have h404 : natToDec 404 = "404" := by
      simp [natToDec, natDigits, natToDecAux, Nat.digitChar]
    rw [navFailMessage, h404]
    simp [String.data_append]

/-- Witness for C6: both strategies receive a `404 Not Found` response;
the link outcome is a failure carrying the HTTP-404 message, and that
message contains `"404"`. -/
theorem nav_http_status_gate_witness :
    400 ≤ 404 ∧
    LinkCaptureTask.run false "https://a.com" "out/a-com"
        [(navigateWithFallback 45000 60000 "https://a.com"
            (fun _ => GotoResult.resp (some (404, "Not Found")))).2,
          Except.ok (), Except.ok ()] =
      CaptureOutcome.fail "https://a.com" "out/a-com"
        (navFailMessage "https://a.com" 404 "Not Found") ∧
    ("404".data <:+: (navFailMessage "https://a.com" 404 "Not Found").data) :=
  ⟨by decide,
   ((nav_http_status_gate 45000 60000 "https://a.com" "Not Found"
      (fun _ => GotoResult.resp (some (404, "Not Found"))) 404 (by decide)).2.1
      (by decide) rfl).2 false "out/a-com",
   (nav_http_status_gate 45000 60000 "https://a.com" "Not Found"
      (fun _ => GotoResult.resp (some (404, "Not Found"))) 404 (by decide)).2.2⟩

/-! ### The content-readiness predicate -/

/-- C4 (counterexample): at a DOM state whose body has no text and whose
first matching element is a textless, zero-sized non-`HTMLElement` (e.g. a
bare `svg`), the code's predicate is ready while the spec's four-step
definition is not — the two are not equal on every DOM state. -/
theorem contentReady_counterexample :
    contentReadyCheck domDividingState = true ∧
    contentReadySpec domDividingState = false := by
  constructor <;> rfl

theorem jsTrim_empty : jsTrim "" = "" := rfl

/-- C4 (amended): the in-page predicate equals the four-step definition
amended with the code's carve-out: a matching element that is not an
`HTMLElement` is accepted as ready without consulting steps (3)-(4). -/
theorem contentReady_matches_amended_spec (d : DomState) :
    contentReadyCheck d = contentReadySpecAmended d := by
  rcases d with ⟨body⟩
  cases body with
  | none => rfl
  | some b =>
    rcases b with ⟨innerText, firstMeaningful⟩
    cases innerText with
    | none =>
      cases firstMeaningful with
      | none => rfl
      | some el =>
        by_cases hel : jsTrim el.innerText = "" <;>
          simp [contentReadyCheck, contentReadySpecAmended, jsTrim_empty, hel]
    | some s =>
      cases firstMeaningful with
      | none =>
        by_cases hs : jsTrim s = "" <;>
          simp [contentReadyCheck, contentReadySpecAmended, hs]
      | some el =>
        by_cases hs : jsTrim s = "" <;> by_cases hel : jsTrim el.innerText = "" <;>
          simp [contentReadyCheck, contentReadySpecAmended, hs, hel]

/-! ### The collision loop of `slugifyUrl` -/

theorem natToDec_ne_empty (n : Nat) : natToDec n ≠ "" := by
  intro h
  exact natDigits_ne_nil n (congrArg String.data h)

theorem natToDec_length_pos (n : Nat) : 0 < (natToDec n).length := by
  have : (natToDec n).length = (natDigits n).length := rfl
  rw [this]
  exact List.length_pos.mpr (natDigits_ne_nil n)

theorem suffixCandidate_injective (base : String) :
    Function.Injective (suffixCandidate base) := by
  have hlen : ∀ k : Nat, base.length < (suffixCandidate base (k + 1)).length := by
    intro k
    have h1 : (suffixCandidate base (k + 1)).length =
        base.length + 1 + (natToDec (k + 1)).length := by
      simp [suffixCandidate, String.length_append]
      rfl
    have := natToDec_length_pos (k + 1)
    omega
  intro j k h
  match j, k with
  | 0, 0 => rfl
  | 0, k + 1 =>
    exfalso
    have := hlen k
    rw [← h] at this
    simp [suffixCandidate] at this
  | j + 1, 0 =>
    exfalso
    have := hlen j
    rw [h] at this
    simp [suffixCandidate] at this
  | j + 1, k + 1 =>
    have hd := congrArg String.data h
    simp only [suffixCandidate, String.data_append, List.append_assoc,
      List.append_cancel_left_eq] at hd
    have hdig : natDigits (j + 1) = natDigits (k + 1) := by
      have : (natToDec (j + 1)).data = (natToDec (k + 1)).data := by
        simpa using hd
      exact this
    have := natDigits_injective hdig
    omega

theorem pickUniqueAux_not_mem (usedNames : List String) (base : String) :
    ∀ fuel k, (∃ j, j ≤ fuel ∧ suffixCandidate base (k + j) ∉ usedNames) →
      pickUniqueAux usedNames base fuel k ∉ usedNames := by
  intro fuel
  induction fuel with
  | zero =>
    rintro k ⟨j, hj, hnot⟩
    have hj0 : j = 0 := by omega
    subst hj0
    simpa [pickUniqueAux] using hnot
  | succ fuel ih =>
    rintro k ⟨j, hj, hnot⟩
    by_cases hmem : suffixCandidate base k ∈ usedNames
    · rw [pickUniqueAux, if_pos hmem]
      apply ih (k + 1)
      cases j with
      | zero => exact absurd (by simpa using hmem) (by simpa using hnot)
      | succ j' =>
        refine ⟨j', by omega, ?_⟩
        have harith : k + 1 + j' = k + (j' + 1) := by omega
        rw [harith]
        exact hnot
    · rw [pickUniqueAux, if_neg hmem]
      exact hmem

theorem exists_unused_candidate (usedNames : List String) (base : String) :
    ∃ j, j ≤ usedNames.length ∧ suffixCandidate base j ∉ usedNames := by
  by_contra hall
  push_neg at hall
  have hsub : ((List.range (usedNames.length + 1)).map (suffixCandidate base)) ⊆
      usedNames := by
    intro x hx
    rcases List.mem_map.mp hx with ⟨j, hj, rfl⟩
    exact hall j (Nat.lt_succ_iff.mp (List.mem_range.mp hj))
  have hnd : ((List.range (usedNames.length + 1)).map (suffixCandidate base)).Nodup :=
    (List.nodup_range _).map (suffixCandidate_injective base)
  have hle := (hnd.subperm hsub).length_le
  simp at hle

theorem pickUnique_not_mem (usedNames : List String) (base : String) :
    pickUnique usedNames base ∉ usedNames := by
  obtain ⟨j, hj, hnot⟩ := exists_unused_candidate usedNames base
  exact pickUniqueAux_not_mem usedNames base (usedNames.length + 1) 0
    ⟨j, by omega, by simpa using hnot⟩

theorem pickUniqueAux_walk (usedNames : List String) (base : String) :
    ∀ fuel k j, j ≤ fuel →
      (∀ m, m < j → suffixCandidate base (k + m) ∈ usedNames) →
      suffixCandidate base (k + j) ∉ usedNames →
      pickUniqueAux usedNames base fuel k = suffixCandidate base (k + j) := by
  intro fuel
  induction fuel with
  | zero =>
    intro k j hj _ _
    have hj0 : j = 0 := by omega
    subst hj0
    simp [pickUniqueAux]
  | succ fuel ih =>
    intro k j hj hbefore hnot
    cases j with
    | zero =>
      have hmem : suffixCandidate base k ∉ usedNames := by simpa using hnot
      simp [pickUniqueAux, hmem]
    | succ j' =>
      have hmem : suffixCandidate base k ∈ usedNames := by
        simpa using hbefore 0 (by omega)
      rw [pickUniqueAux, if_pos hmem]
      have hstep : ∀ m, m < j' → suffixCandidate base (k + 1 + m) ∈ usedNames := by
        intro m hm
        have harith : k + 1 + m = k + (m + 1) := by omega
        rw [harith]
        exact hbefore (m + 1) (by omega)
      have hnot' : suffixCandidate base (k + 1 + j') ∉ usedNames := by
        have harith : k + 1 + j' = k + (j' + 1) := by omega
        rw [harith]
        exact hnot
      have := ih (k + 1) j' (by omega) hstep hnot'
      rw [this]
      congr 1
      omega

theorem pickUnique_of_not_mem (usedNames : List String) (base : String)
    (h : base ∉ usedNames) : pickUnique usedNames base = base := by
  have := pickUniqueAux_walk usedNames base (usedNames.length + 1) 0 0 (by omega)
    (fun m hm => absurd hm (by omega)) (by simpa using h)
  simpa [pickUnique] using this

/-! ### Uniqueness and determinism of the produced folder names -/

theorem slugifyUrl_fst_not_mem (usedNames : List String)
    (parse : String → Option ParsedUrl) (rawUrl : String) (index : Nat) :
    (slugifyUrl usedNames parse rawUrl index).1 ∉ usedNames :=
  pickUnique_not_mem usedNames _

theorem slugifyUrl_snd (usedNames : List String) (parse : String → Option ParsedUrl)
    (rawUrl : String) (index : Nat) :
    (slugifyUrl usedNames parse rawUrl index).2 =
      (slugifyUrl usedNames parse rawUrl index).1 :: usedNames := rfl

theorem slugRun_not_mem_and_nodup (parse : String → Option ParsedUrl)
    (urls : List String) :
    ∀ (index : Nat) (usedNames : List String),
      (∀ name ∈ slugRun parse urls index usedNames, name ∉ usedNames) ∧
      (slugRun parse urls index usedNames).Nodup := by
  induction urls with
  | nil => intro index usedNames; simp [slugRun]
  | cons url rest ih =>
    intro index usedNames
    have hhead := slugifyUrl_fst_not_mem usedNames parse url index
    have ihtail := ih (index + 1) (slugifyUrl usedNames parse url index).2
    constructor
    · intro name hname
      rcases List.mem_cons.mp hname with rfl | htail
      · exact hhead
      · intro hmem
        exact ihtail.1 name htail
          (by rw [slugifyUrl_snd]; exact List.mem_cons_of_mem _ hmem)
    · rw [slugRun]
      refine List.nodup_cons.mpr ⟨?_, ihtail.2⟩
      intro hmem
      exact ihtail.1 _ hmem (by rw [slugifyUrl_snd]; exact List.mem_cons_self _ _)

theorem mem_reverse_map_range (base : String) (j : Nat) (x : String) :
    x ∈ ((List.range j).map (suffixCandidate base)).reverse ↔
      ∃ m, m < j ∧ x = suffixCandidate base m := by
  simp only [List.mem_reverse, List.mem_map, List.mem_range]
  constructor
  · rintro ⟨m, hm, rfl⟩; exact ⟨m, hm, rfl⟩
  · rintro ⟨m, hm, rfl⟩; exact ⟨m, hm, rfl⟩

theorem pickUnique_filled (base : String) (j : Nat) :
    pickUnique (((List.range j).map (suffixCandidate base)).reverse) base =
      suffixCandidate base j := by
  set usedNames := ((List.range j).map (suffixCandidate base)).reverse with husep
  have hlen : usedNames.length = j := by simp [husep]
  have hbefore : ∀ m, m < j → suffixCandidate base (0 + m) ∈ usedNames := by
    intro m hm
    rw [mem_reverse_map_range]
    exact ⟨m, hm, by simp⟩
  have hnot : suffixCandidate base (0 + j) ∉ usedNames := by
    rw [mem_reverse_map_range]
    rintro ⟨m, hm, hx⟩
    have := suffixCandidate_injective base (by simpa using hx.symm)
    omega
  have := pickUniqueAux_walk usedNames base (usedNames.length + 1) 0 j
    (by omega) hbefore hnot
  simpa [pickUnique] using this

theorem slugRun_replicate_aux (parse : String → Option ParsedUrl) (u s : String)
    (hs : sanitizeSlug (slugBase parse u) = s) (hne : s ≠ "") :
    ∀ (n j index : Nat),
      slugRun parse (List.replicate n u) index
          (((List.range j).map (suffixCandidate s)).reverse) =
        (List.range' j n).map (suffixCandidate s) := by
  intro n
  induction n with
  | zero => intro j index; simp [slugRun]
  | succ n ih =>
    intro j index
    rw [List.replicate_succ, slugRun]
    have hslug : slugifyUrl (((List.range j).map (suffixCandidate s)).reverse)
        parse u index =
        (suffixCandidate s j,
         suffixCandidate s j :: ((List.range j).map (suffixCandidate s)).reverse) := by
      simp [slugifyUrl, hs, hne, pickUnique_filled]
    rw [hslug]
    have hused : suffixCandidate s j ::
        ((List.range j).map (suffixCandidate s)).reverse =
        ((List.range (j + 1)).map (suffixCandidate s)).reverse := by
      rw [List.range_succ]
      simp
    rw [hused, ih (j + 1) (index + 1)]
    simp [List.range']

/-- C8: within one run the produced folder names are pairwise distinct
(each returned candidate is checked against, and added to, the used-name
set); URLs normalizing to one non-empty slug `s` deterministically receive
`s`, `s-1`, `s-2`, ...; on URL-parse failure the sanitized raw string is
the slug base; and when sanitization is empty the name is
`link-<1-based index>`. -/
theorem slug_names_unique (parse : String → Option ParsedUrl) :
    (∀ (urls : List String) (index : Nat) (usedNames : List String),
      (slugRun parse urls index usedNames).Nodup) ∧
    (∀ (u s : String) (n : Nat),
      sanitizeSlug (slugBase parse u) = s → s ≠ "" →
      slugRun parse (List.replicate n u) 0 [] =
        (List.range n).map (suffixCandidate s)) ∧
    (∀ (rawUrl : String) (index : Nat) (usedNames : List String),
      parse rawUrl = none → sanitizeSlug rawUrl ≠ "" →
      sanitizeSlug rawUrl ∉ usedNames →
      (slugifyUrl usedNames parse rawUrl index).1 = sanitizeSlug rawUrl) ∧
    (∀ (rawUrl : String) (index : Nat) (usedNames : List String),
      parse rawUrl = none → sanitizeSlug rawUrl = "" →
      ("link-" ++ natToDec (index + 1)) ∉ usedNames →
      (slugifyUrl usedNames parse rawUrl index).1 =
        "link-" ++ natToDec (index + 1)) := by
  refine ⟨?_, ?_, ?_, ?_⟩
  · intro urls index usedNames
    exact (slugRun_not_mem_and_nodup parse urls index usedNames).2
  · intro u s n hs hne
    have := slugRun_replicate_aux parse u s hs hne n 0 0
    simpa [List.range_eq_range'] using this
  · intro rawUrl index usedNames hp hne hnm
    have hbase : slugBase parse rawUrl = rawUrl := by simp [slugBase, hp]
    simp only [slugifyUrl, hbase, if_neg hne]
    exact pickUnique_of_not_mem usedNames _ hnm
  · intro rawUrl index usedNames hp hempty hnm
    have hbase : slugBase parse rawUrl = rawUrl := by simp [slugBase, hp]
    simp only [slugifyUrl, hbase, hempty, if_pos rfl]
    exact pickUnique_of_not_mem usedNames _ hnm

/-- Witness for C8: three copies of `https://Example.com` produce
`example-com`, `example-com-1`, `example-com-2`. -/
theorem slug_names_unique_witness :
    sanitizeSlug (slugBase noParse "https://Example.com") = "example-com" ∧
    slugRun noParse (List.replicate 3 "https://Example.com") 0 [] =
      ["example-com", "example-com-1", "example-com-2"] := by
  have hstrip : stripProtocols (slugBase noParse "https://Example.com").data =
      "Example.com".data := by
    have hb : (slugBase noParse "https://Example.com").data =
        "https://Example.com".data := rfl
    rw [hb]
    simp [stripProtocols, jsToLower, isAsciiUpper]
  have hs : sanitizeSlug (slugBase noParse "https://Example.com") = "example-com" := by
    simp only [sanitizeSlug]
    rw [hstrip]
    decide
  refine ⟨hs, ?_⟩
  rw [(slug_names_unique noParse).2.1 "https://Example.com" "example-com" 3 hs
    (by decide)]
  have h1 : natToDec 1 = "1" := by
    simp [natToDec, natDigits, natToDecAux, Nat.digitChar]
  have h2 : natToDec 2 = "2" := by
    simp [natToDec, natDigits, natToDecAux, Nat.digitChar]
  show [suffixCandidate "example-com" 0, suffixCandidate "example-com" 1,
    suffixCandidate "example-com" 2] = _
  rw [suffixCandidate, suffixCandidate, suffixCandidate, h1, h2]
  decide

/-! ### Character-level guarantees of the sanitizer -/

theorem collapseNonAlnum_chars (l : List Char) :
    ∀ (inRun : Bool) (c : Char), c ∈ collapseNonAlnum inRun l →
      isAlnumAscii c = true ∨ c = '-' := by
  induction l with
  | nil => intro inRun c hc; simp [collapseNonAlnum] at hc
  | cons a rest ih =>
    intro inRun c hc
    by_cases ha : isAlnumAscii a = true
    · rw [collapseNonAlnum, if_pos ha] at hc
      rcases List.mem_cons.mp hc with rfl | h
      · exact Or.inl ha
      · exact ih false c h
    · rw [collapseNonAlnum, if_neg ha] at hc
      cases inRun with
      | true =>
        rw [if_pos rfl] at hc
        exact ih true c hc
      | false =>
        rw [if_neg (by simp)] at hc
        rcases List.mem_cons.mp hc with rfl | h
        · exact Or.inr rfl
        · exact ih true c h

theorem dropWhile_head?_not (p : Char → Bool) (l : List Char) :
    ∀ c, (l.dropWhile p).head? = some c → p c = false := by
  induction l with
  | nil => intro c hc; simp at hc
  | cons a rest ih =>
    intro c hc
    by_cases ha : p a = true
    · rw [List.dropWhile_cons] at hc
      rw [if_pos ha] at hc
      exact ih c hc
    · rw [List.dropWhile_cons, if_neg ha] at hc
      have : a = c := by simpa using hc
      subst this
      simpa using ha

theorem trimHyphens_subset (l : List Char) : ∀ c ∈ trimHyphens l, c ∈ l := by
  intro c hc
  rw [trimHyphens, dropTrailingHyphens] at hc
  have h1 := List.mem_reverse.mp hc
  have h2 := ((l.dropWhile isHyphen).reverse.dropWhile_sublist isHyphen).subset h1
  have h3 := List.mem_reverse.mp h2
  exact (l.dropWhile_sublist isHyphen).subset h3

theorem dropTrailingHyphens_head? (u : List Char) (c : Char)
    (h : (dropTrailingHyphens u).head? = some c) : u.head? = some c := by
  obtain ⟨t, ht⟩ := List.dropWhile_suffix (l := u.reverse) isHyphen
  have hu : dropTrailingHyphens u ++ t.reverse = u := by
    rw [dropTrailingHyphens]
    have := congrArg List.reverse ht
    simpa [List.reverse_append] using this
  rw [← hu, List.head?_append, h]
  rfl

theorem trimHyphens_head?_ne (l : List Char) (c : Char)
    (h : (trimHyphens l).head? = some c) : c ≠ '-' := by
  rw [trimHyphens] at h
  have h2 := dropTrailingHyphens_head? _ _ h
  have h3 := dropWhile_head?_not isHyphen l c h2
  simp [isHyphen] at h3
  exact h3

theorem trimHyphens_getLast?_ne (l : List Char) (c : Char)
    (h : (trimHyphens l).getLast? = some c) : c ≠ '-' := by
  rw [trimHyphens, dropTrailingHyphens, List.getLast?_reverse] at h
  have h3 := dropWhile_head?_not isHyphen _ _ h
  simp [isHyphen] at h3
  exact h3

theorem charOfNat_toNat (m : Nat) (h : m < 55296) : (Char.ofNat m).toNat = m := by
  have hv : m.isValidChar := Or.inl h
  rw [Char.ofNat, dif_pos hv]
  rfl

theorem jsToLower_eq_hyphen (c : Char) (h : jsToLower c = '-') : c = '-' := by
  by_cases hu : isAsciiUpper c = true
  · exfalso
    rw [jsToLower, if_pos hu] at h
    have hb : 65 ≤ c.toNat ∧ c.toNat ≤ 90 := by
      simpa [isAsciiUpper, Bool.and_eq_true, decide_eq_true_eq] using hu
    have htn := congrArg Char.toNat h
    rw [charOfNat_toNat _ (by omega)] at htn
    have h45 : ('-' : Char).toNat = 45 := rfl
    rw [h45] at htn
    omega
  · rw [jsToLower, if_neg hu] at h
    exact h

theorem jsToLower_slugChar (c : Char) (h : isAlnumAscii c = true) :
    isSlugChar (jsToLower c) = true := by
  by_cases hu : isAsciiUpper c = true
  · have hb : 65 ≤ c.toNat ∧ c.toNat ≤ 90 := by
      simpa [isAsciiUpper, Bool.and_eq_true, decide_eq_true_eq] using hu
    rw [jsToLower, if_pos hu]
    have ht := charOfNat_toNat (c.toNat + 32) (by omega)
    simp only [isSlugChar, isAsciiLower, isAsciiDigit, ht, Bool.or_eq_true,
      Bool.and_eq_true, decide_eq_true_eq]
    left
    omega
  · have halnum : 97 ≤ c.toNat ∧ c.toNat ≤ 122 ∨ 48 ≤ c.toNat ∧ c.toNat ≤ 57 := by
      simp only [isAlnumAscii, isAsciiUpper, isAsciiLower, isAsciiDigit,
        Bool.or_eq_true, Bool.and_eq_true, decide_eq_true_eq] at h hu
      omega
    rw [jsToLower, if_neg hu]
    simp only [isSlugChar, isAsciiLower, isAsciiDigit, Bool.or_eq_true,
      Bool.and_eq_true, decide_eq_true_eq]
    omega

theorem string_eq_empty_iff (s : String) : s = "" ↔ s.data = [] := by
  constructor
  · intro h; rw [h]
  · intro h
    cases s with
    | mk l =>
      have hl : l = [] := h
      subst hl
      rfl

theorem isAsciiDigit_ne_hyphen (c : Char) (h : isAsciiDigit c = true) : c ≠ '-' := by
  intro hc
  subst hc
  simp [isAsciiDigit] at h

theorem getLast?_mem (l : List Char) (c : Char) (h : l.getLast? = some c) : c ∈ l := by
  obtain ⟨hne, heq⟩ := List.mem_getLast?_eq_getLast (l := l) (x := c) h
  rw [heq]
  exact List.getLast_mem hne

theorem suffixCandidate_data (base : String) (k : Nat) :
    (suffixCandidate base (k + 1)).data = base.data ++ '-' :: natDigits (k + 1) := by
  show (base ++ "-" ++ natToDec (k + 1)).data = _
  rw [String.data_append, String.data_append, List.append_assoc]
  rfl

theorem suffixCandidate_props (base : String) (hne : base ≠ "")
    (hchars : ∀ c ∈ base.data, isSlugChar c = true)
    (hhead : ∀ c, base.data.head? = some c → c ≠ '-')
    (hlast : ∀ c, base.data.getLast? = some c → c ≠ '-')
    (k : Nat) :
    suffixCandidate base k ≠ "" ∧
    (∀ c ∈ (suffixCandidate base k).data, isSlugChar c = true) ∧
    (∀ c, (suffixCandidate base k).data.head? = some c → c ≠ '-') ∧
    (∀ c, (suffixCandidate base k).data.getLast? = some c → c ≠ '-') := by
  cases k with
  | zero => exact ⟨hne, hchars, hhead, hlast⟩
  | succ k =>
    have hdata := suffixCandidate_data base k
    have hbd : base.data ≠ [] := fun h => hne ((string_eq_empty_iff base).mpr h)
    refine ⟨?_, ?_, ?_, ?_⟩
    · intro h
      have h2 := (string_eq_empty_iff _).mp h
      rw [hdata] at h2
      exact hbd (List.append_eq_nil.mp h2).1
    · intro c hc
      rw [hdata] at hc
      rcases List.mem_append.mp hc with h1 | h2
      · exact hchars c h1
      · rcases List.mem_cons.mp h2 with rfl | h3
        · decide
        · have hd := natDigits_all_digit (k + 1) c h3
          simp [isSlugChar, hd]
    · intro c hc
      rw [hdata, List.head?_append] at hc
      cases hh : base.data.head? with
      | none => exact absurd (List.head?_eq_none_iff.mp hh) hbd
      | some a =>
        rw [hh] at hc
        have hac : a = c := by simpa [Option.or] using hc
        subst hac
        exact hhead a hh
    · intro c hc
      rw [hdata, List.getLast?_append_of_ne_nil _ (by simp)] at hc
      have hdig : natDigits (k + 1) ≠ [] := natDigits_ne_nil (k + 1)
      have happ := List.getLast?_append_of_ne_nil ['-'] hdig
      have hc2 : (natDigits (k + 1)).getLast? = some c := by
        rw [← happ]
        exact hc
      have hmem := getLast?_mem _ _ hc2
      exact isAsciiDigit_ne_hyphen c (natDigits_all_digit (k + 1) c hmem)

theorem sanitizeSlug_props (s : String) :
    (∀ c ∈ (sanitizeSlug s).data, isSlugChar c = true) ∧
    (∀ c, (sanitizeSlug s).data.head? = some c → c ≠ '-') ∧
    (∀ c, (sanitizeSlug s).data.getLast? = some c → c ≠ '-') := by
  have hdata : (sanitizeSlug s).data =
      (trimHyphens (collapseNonAlnum false (stripProtocols s.data))).map jsToLower := rfl
  have hsource : ∀ c ∈ trimHyphens (collapseNonAlnum false (stripProtocols s.data)),
      isAlnumAscii c = true ∨ c = '-' := by
    intro c hc
    exact collapseNonAlnum_chars (stripProtocols s.data) false c
      (trimHyphens_subset _ c hc)
  refine ⟨?_, ?_, ?_⟩
  · intro c hc
    rw [hdata] at hc
    rcases List.mem_map.mp hc with ⟨a, ha, rfl⟩
    rcases hsource a ha with h1 | rfl
    · exact jsToLower_slugChar a h1
    · decide
  · intro c hc
    rw [hdata, List.head?_map] at hc
    cases hh : (trimHyphens (collapseNonAlnum false (stripProtocols s.data))).head? with
    | none => rw [hh] at hc; cases hc
    | some a =>
      rw [hh] at hc
      have hac : jsToLower a = c := by simpa using hc
      have hnh := trimHyphens_head?_ne _ a hh
      intro hcontra
      subst hcontra
      exact hnh (jsToLower_eq_hyphen a hac)
  · intro c hc
    rw [hdata, List.getLast?_map] at hc
    cases hh : (trimHyphens (collapseNonAlnum false (stripProtocols s.data))).getLast? with
    | none => rw [hh] at hc; cases hc
    | some a =>
      rw [hh] at hc
      have hac : jsToLower a = c := by simpa using hc
      have hnh := trimHyphens_getLast?_ne _ a hh
      intro hcontra
      subst hcontra
      exact hnh (jsToLower_eq_hyphen a hac)

theorem linkName_props (index : Nat) :
    ("link-" ++ natToDec (index + 1)) ≠ "" ∧
    (∀ c ∈ ("link-" ++ natToDec (index + 1)).data, isSlugChar c = true) ∧
    (∀ c, ("link-" ++ natToDec (index + 1)).data.head? = some c → c ≠ '-') ∧
    (∀ c, ("link-" ++ natToDec (index + 1)).data.getLast? = some c → c ≠ '-') := by
  have hdata : ("link-" ++ natToDec (index + 1)).data =
      "link-".data ++ natDigits (index + 1) := String.data_append _ _
  refine ⟨?_, ?_, ?_, ?_⟩
  · intro h
    have h2 := (string_eq_empty_iff _).mp h
    rw [hdata] at h2
    have : ("link-".data : List Char) = [] := (List.append_eq_nil.mp h2).1
    simp at this
  · intro c hc
    rw [hdata] at hc
    rcases List.mem_append.mp hc with h1 | h2
    · have hall : ∀ a ∈ "link-".data, isSlugChar a = true := by decide
      exact hall c h1
    · have hd := natDigits_all_digit (index + 1) c h2
      simp [isSlugChar, hd]
  · intro c hc
    rw [hdata, List.head?_append] at hc
    have hl : ("link-".data).head? = some 'l' := rfl
    rw [hl] at hc
    have : 'l' = c := by simpa [Option.or] using hc
    subst this
    decide
  · intro c hc
    rw [hdata, List.getLast?_append_of_ne_nil _ (natDigits_ne_nil (index + 1))] at hc
    have hmem := getLast?_mem _ _ hc
    exact isAsciiDigit_ne_hyphen c (natDigits_all_digit (index + 1) c hmem)

theorem pickUniqueAux_is_candidate (usedNames : List String) (base : String) :
    ∀ fuel k, ∃ j, pickUniqueAux usedNames base fuel k = suffixCandidate base j := by
  intro fuel
  induction fuel with
  | zero => intro k; exact ⟨k, rfl⟩
  | succ fuel ih =>
    intro k
    by_cases hmem : suffixCandidate base k ∈ usedNames
    · rw [pickUniqueAux, if_pos hmem]
      exact ih (k + 1)
    · rw [pickUniqueAux, if_neg hmem]
      exact ⟨k, rfl⟩

/-- C10: for every input string, index and used-name set, the folder name
produced by `slugifyUrl` is non-empty, consists only of lowercase ASCII
letters, digits and hyphens, and neither starts nor ends with a hyphen. -/
theorem slug_filesystem_safe (usedNames : List String)
    (parse : String → Option ParsedUrl) (rawUrl : String) (index : Nat) :
    (slugifyUrl usedNames parse rawUrl index).1 ≠ "" ∧
    (∀ c ∈ (slugifyUrl usedNames parse rawUrl index).1.data, isSlugChar c = true) ∧
    (∀ c, (slugifyUrl usedNames parse rawUrl index).1.data.head? = some c → c ≠ '-') ∧
    (∀ c, (slugifyUrl usedNames parse rawUrl index).1.data.getLast? = some c →
      c ≠ '-') := by
  have hprops :
      (if sanitizeSlug (slugBase parse rawUrl) = "" then "link-" ++ natToDec (index + 1)
        else sanitizeSlug (slugBase parse rawUrl)) ≠ "" ∧
      (∀ c ∈ (if sanitizeSlug (slugBase parse rawUrl) = ""
          then "link-" ++ natToDec (index + 1)
          else sanitizeSlug (slugBase parse rawUrl)).data, isSlugChar c = true) ∧
      (∀ c, (if sanitizeSlug (slugBase parse rawUrl) = ""
          then "link-" ++ natToDec (index + 1)
          else sanitizeSlug (slugBase parse rawUrl)).data.head? = some c → c ≠ '-') ∧
      (∀ c, (if sanitizeSlug (slugBase parse rawUrl) = ""
          then "link-" ++ natToDec (index + 1)
          else sanitizeSlug (slugBase parse rawUrl)).data.getLast? = some c →
        c ≠ '-') := by
    by_cases hemp : sanitizeSlug (slugBase parse rawUrl) = ""
    · rw [if_pos hemp]
      exact linkName_props index
    · rw [if_neg hemp]
      obtain ⟨h1, h2, h3⟩ := sanitizeSlug_props (slugBase parse rawUrl)
      exact ⟨hemp, h1, h2, h3⟩
  obtain ⟨j, hj⟩ := pickUniqueAux_is_candidate usedNames
    (if sanitizeSlug (slugBase parse rawUrl) = "" then "link-" ++ natToDec (index + 1)
      else sanitizeSlug (slugBase parse rawUrl)) (usedNames.length + 1) 0
  have hfst : (slugifyUrl usedNames parse rawUrl index).1 =
      suffixCandidate (if sanitizeSlug (slugBase parse rawUrl) = ""
        then "link-" ++ natToDec (index + 1)
        else sanitizeSlug (slugBase parse rawUrl)) j := hj
  rw [hfst]
  exact suffixCandidate_props _ hprops.1 hprops.2.1 hprops.2.2.1 hprops.2.2.2 j

/-- Witness for C10: the URL `HTTP://Ex.com/` (uppercase protocol, mixed
case, trailing punctuation) yields the folder name `ex-com`; its head is
`e`, which the theorem confirms is not a hyphen, and the name is
non-empty. -/
theorem slug_filesystem_safe_witness :
    (slugifyUrl [] noParse "HTTP://Ex.com/" 0).1 = "ex-com" ∧
    ('e' : Char) ≠ '-' ∧
    (slugifyUrl [] noParse "HTTP://Ex.com/" 0).1 ≠ "" := by
  have hstrip : stripProtocols (slugBase noParse "HTTP://Ex.com/").data =
      "Ex.com/".data := by
    have hb : (slugBase noParse "HTTP://Ex.com/").data = "HTTP://Ex.com/".data := rfl
    rw [hb]
    simp [stripProtocols, jsToLower, isAsciiUpper]
  have hs : sanitizeSlug (slugBase noParse "HTTP://Ex.com/") = "ex-com" := by
    simp only [sanitizeSlug]
    rw [hstrip]
    decide
  have hfst : (slugifyUrl [] noParse "HTTP://Ex.com/" 0).1 =
      pickUnique [] (if sanitizeSlug (slugBase noParse "HTTP://Ex.com/") = ""
        then "link-" ++ natToDec (0 + 1)
        else sanitizeSlug (slugBase noParse "HTTP://Ex.com/")) := rfl
  have hslug : (slugifyUrl [] noParse "HTTP://Ex.com/" 0).1 = "ex-com" := by
    rw [hfst, hs]
    decide
  exact ⟨hslug,
    (slug_filesystem_safe [] noParse "HTTP://Ex.com/" 0).2.2.1 'e'
      (by rw [hslug]; rfl),
    (slug_filesystem_safe [] noParse "HTTP://Ex.com/" 0).1⟩

/-! ### Warning bookkeeping of `DeviceContextFactory` -/

theorem deviceKind_beq_comm (a b : DeviceKind) : (a == b) = (b == a) := by
  cases a <;> cases b <;> rfl

theorem emitWarning_emission (st : FactoryState) (type : DeviceKind) (name : String) :
    (emitWarning st type name).1 = if st.warned type then [] else [(type, name)] := by
  rcases st with ⟨d, m, t⟩
  cases type <;> cases d <;> cases m <;> cases t <;> rfl

theorem emitWarning_warned (st : FactoryState) (type : DeviceKind) (name : String)
    (kind : DeviceKind) :
    ((emitWarning st type name).2).warned kind = (st.warned kind || kind == type) := by
  rcases st with ⟨d, m, t⟩
  cases type <;> cases kind <;> cases d <;> cases m <;> cases t <;> rfl

theorem resolveDescriptor_emitsFor (st : FactoryState) (registry : String → Option Unit)
    (descriptorName : Option String) (type kind : DeviceKind) :
    emitsFor kind (resolveDescriptor st registry descriptorName type).2.1 =
      (kind == type && warnTrigger registry descriptorName && !(st.warned type)) := by
  cases descriptorName with
  | none => simp [resolveDescriptor, warnTrigger, emitsFor]
  | some n =>
    by_cases hb : jsTrim n = ""
    · simp [resolveDescriptor, warnTrigger, emitsFor, hb]
    · cases hr : registry (jsTrim n) with
      | none =>
        rw [resolveDescriptor]
        rw [if_neg hb]
        rw [hr]
        rw [emitWarning_emission]
        by_cases hw : st.warned type = true
        · simp [hw, emitsFor, warnTrigger, hb, hr]
        · have hw' : st.warned type = false := by simpa using hw
          simp only [hw', if_false, Bool.not_false, Bool.and_true]
          simp [emitsFor, warnTrigger, hb, hr, deviceKind_beq_comm]
      | some d => simp [resolveDescriptor, warnTrigger, emitsFor, hb, hr]

theorem resolveDescriptor_warned (st : FactoryState) (registry : String → Option Unit)
    (descriptorName : Option String) (type kind : DeviceKind) :
    ((resolveDescriptor st registry descriptorName type).2.2).warned kind =
      (st.warned kind || (kind == type && warnTrigger registry descriptorName)) := by
  cases descriptorName with
  | none => simp [resolveDescriptor, warnTrigger]
  | some n =>
    by_cases hb : jsTrim n = ""
    · simp [resolveDescriptor, warnTrigger, hb]
    · cases hr : registry (jsTrim n) with
      | none =>
        rw [resolveDescriptor]
        rw [if_neg hb]
        rw [hr]
        rw [emitWarning_warned]
        simp [warnTrigger, hb, hr]
      | some d => simp [resolveDescriptor, warnTrigger, hb, hr]

theorem runLookups_length (registry : String → Option Unit) :
    ∀ (entries : List (DeviceKind × Option String)) (st : FactoryState),
      (runLookups registry st entries).length = entries.length := by
  intro entries
  induction entries with
  | nil => intro st; rfl
  | cons entry rest ih =>
    intro st
    rcases entry with ⟨k, n⟩
    simp [runLookups, ih]

theorem runLookups_emitsFor (registry : String → Option Unit) (kind : DeviceKind) :
    ∀ (entries : List (DeviceKind × Option String)) (st : FactoryState) (i : Nat)
      (hi : i < entries.length) (he : i < (runLookups registry st entries).length),
      emitsFor kind ((runLookups registry st entries).get ⟨i, he⟩) =
        (!(st.warned kind) && triggersFor registry kind (entries.get ⟨i, hi⟩) &&
         !((entries.take i).any (triggersFor registry kind))) := by
  intro entries
  induction entries with
  | nil => intro st i hi; simp at hi
  | cons entry rest ih =>
    intro st i hi he
    rcases entry with ⟨k, n⟩
    cases i with
    | zero =>
      show emitsFor kind (resolveDescriptor st registry n k).2.1 = _
      rw [resolveDescriptor_emitsFor]
      simp only [List.get_cons_zero, List.take_zero, List.any_nil, Bool.not_false,
        Bool.and_true, triggersFor]
      by_cases hk : kind = k
      · subst hk
        cases htr : warnTrigger registry n <;> cases hw : st.warned kind <;>
          simp [htr, hw]
      · have h1 : (kind == k) = false := by simp [hk]
        have h2 : (k == kind) = false := by simp [Ne.symm hk]
        simp [h1, h2]
    | succ i =>
      have hi' : i < rest.length := by simpa using hi
      have he' : i < (runLookups registry
          (resolveDescriptor st registry n k).2.2 rest).length := by
        rw [runLookups_length]
        exact hi'
      show emitsFor kind ((runLookups registry
        (resolveDescriptor st registry n k).2.2 rest).get ⟨i, he'⟩) = _
      rw [ih _ i hi' he', resolveDescriptor_warned]
      simp only [List.get_cons_succ, List.take_succ_cons, List.any_cons, Bool.not_or,
        triggersFor, deviceKind_beq_comm k kind]
      simp only [Bool.and_assoc]
      ac_rfl

/-- C9 (counterexample): a blank (absent) descriptor name makes the lookup
fall back — per the specification a failed lookup — yet the factory emits
no warning at all for that kind, so the warning is not emitted on the
first failing lookup. -/
theorem deviceWarning_counterexample :
    fallsBack emptyRegistry (none : Option String) = true ∧
    runLookups emptyRegistry FactoryState.initial [(DeviceKind.desktop, none)] =
      [[]] := by
  constructor <;> rfl

/-- C9 (amended): over a factory instance's lifetime, for each kind the
warning batch of the `i`-th build mentions that kind exactly when the
`i`-th lookup is the first one whose descriptor name is non-blank and
absent from the registry; blank or absent names fall back silently, and a
kind never warns twice. -/
theorem deviceWarning_once_per_kind (registry : String → Option Unit)
    (entries : List (DeviceKind × Option String)) (kind : DeviceKind) :
    (runLookups registry FactoryState.initial entries).length = entries.length ∧
    (∀ (i : Nat) (hi : i < entries.length)
      (he : i < (runLookups registry FactoryState.initial entries).length),
      emitsFor kind ((runLookups registry FactoryState.initial entries).get ⟨i, he⟩) =
        (triggersFor registry kind (entries.get ⟨i, hi⟩) &&
         !((entries.take i).any (triggersFor registry kind)))) ∧
    (∀ (i j : Nat) (hie : i < (runLookups registry FactoryState.initial entries).length)
      (hje : j < (runLookups registry FactoryState.initial entries).length),
      i < j →
      emitsFor kind ((runLookups registry FactoryState.initial entries).get ⟨i, hie⟩)
        = true →
      emitsFor kind ((runLookups registry FactoryState.initial entries).get ⟨j, hje⟩)
        = true →
      False) := by
  have hlen := runLookups_length registry entries FactoryState.initial
  have hinit : FactoryState.initial.warned kind = false := by cases kind <;> rfl
  have hchar : ∀ (i : Nat) (hi : i < entries.length)
      (he : i < (runLookups registry FactoryState.initial entries).length),
      emitsFor kind ((runLookups registry FactoryState.initial entries).get ⟨i, he⟩) =
        (triggersFor registry kind (entries.get ⟨i, hi⟩) &&
         !((entries.take i).any (triggersFor registry kind))) := by
    intro i hi he
    rw [runLookups_emitsFor registry kind entries FactoryState.initial i hi he, hinit]
    simp
  refine ⟨hlen, hchar, ?_⟩
  intro i j hie hje hij hiw hjw
  have hi : i < entries.length := by rw [← hlen]; exact hie
  have hj : j < entries.length := by rw [← hlen]; exact hje
  rw [hchar i hi hie] at hiw
  rw [hchar j hj hje] at hjw
  have htrig : triggersFor registry kind (entries.get ⟨i, hi⟩) = true :=
    ((Bool.and_eq_true _ _).mp hiw).1
  have hnone : ((entries.take j).any (triggersFor registry kind)) = false := by
    have := ((Bool.and_eq_true _ _).mp hjw).2
    simpa using this
  have hmem : entries.get ⟨i, hi⟩ ∈ entries.take j := by
    rw [List.mem_take_iff_getElem]
    exact ⟨i, by simp; omega, by simp⟩
  have : (entries.take j).any (triggersFor registry kind) = true :=
    List.any_eq_true.mpr ⟨entries.get ⟨i, hi⟩, hmem, htrig⟩
  rw [hnone] at this
  cases this

/-- Witness for C9 (amended): two desktop builds with the unregistered
name `Desktop Chrome` against an empty registry — the first build warns,
the second does not. -/
theorem deviceWarning_once_per_kind_witness :
    emitsFor DeviceKind.desktop
      ((runLookups emptyRegistry FactoryState.initial
        [(DeviceKind.desktop, some "Desktop Chrome"),
         (DeviceKind.desktop, some "Desktop Chrome")]).get ⟨0, by decide⟩) = true ∧
    emitsFor DeviceKind.desktop
      ((runLookups emptyRegistry FactoryState.initial
        [(DeviceKind.desktop, some "Desktop Chrome"),
         (DeviceKind.desktop, some "Desktop Chrome")]).get ⟨1, by decide⟩) = false := by
  constructor
  · rw [(deviceWarning_once_per_kind emptyRegistry
      [(DeviceKind.desktop, some "Desktop Chrome"),
       (DeviceKind.desktop, some "Desktop Chrome")] DeviceKind.desktop).2.1 0
      (by decide) (by decide)]
    decide
  · rw [(deviceWarning_once_per_kind emptyRegistry
      [(DeviceKind.desktop, some "Desktop Chrome"),
       (DeviceKind.desktop, some "Desktop Chrome")] DeviceKind.desktop).2.1 1
      (by decide) (by decide)]
    decide
